import Mathlib

/-!
Verification development for the Transformer-Architecture repository
(`src/Multi_Modal_text_audio_image.ipynb`).

The notebook defines a `MultimodalTransformer` (text / image / audio
encoders, three linear projections to a shared `hidden_dim`, concatenation
along the sequence axis, an `nn.Transformer` fusion stack and a 10-class
linear classifier on position 0 of the fused sequence) and an Optuna
hyperparameter search whose objective performs one training step on a
freshly built model.

Tensors are embedded as nested lists of rationals.  Code belonging to the
repository is translated directly; external collaborators (the pretrained
encoders, `torchvision` transforms, `nn.Transformer` / `nn.Linear`
internals, `librosa`, the Optuna study loop and sampler) are modelled from
the specification of the interface the core consumes, each marked
`Modelled from the spec:` in its doc comment.
-/

set_option autoImplicit false

/-- A feature vector: one row along the last dimension of a tensor. -/
abbrev Vec := List ℚ

/-- A (sequence length, width) tensor: a sequence of feature vectors. -/
abbrev Tensor2 := List Vec

/-- A (batch, sequence, width) tensor. -/
abbrev Tensor3 := List Tensor2

/-- A (batch, channel, height, width) tensor, as produced for images. -/
abbrev Tensor4 := List Tensor3

/-- Dot product of two vectors (over the common prefix, as both come from
matching shapes in every use). -/
def dotQ (a b : Vec) : ℚ := (List.zipWith (fun x y => x * y) a b).sum

/-- Modelled from the spec: application of a learned affine map
(`nn.Linear` forward): one output coordinate per weight row plus bias. -/
def linearMap (W : Tensor2) (b : Vec) (v : Vec) : Vec :=
  List.zipWith (fun row bi => dotQ row v + bi) W b

/-- An affine map applied elementwise over the sequence axis. -/
def linear2 (W : Tensor2) (b : Vec) (s : Tensor2) : Tensor2 :=
  s.map (linearMap W b)

/-- An affine map applied elementwise over batch and sequence axes. -/
def linear3 (W : Tensor2) (b : Vec) (x : Tensor3) : Tensor3 :=
  x.map (linear2 W b)

/-- An `outF × inF` weight matrix filled from a source of initial values
(weight initialisation is a concern of the external framework). -/
def mkMatrix (outF inF : ℕ) (w : ℕ → ℚ) : Tensor2 :=
  (List.range outF).map (fun r => (List.range inF).map (fun c => w (r * inF + c)))

/-- The weights and bias of one `nn.Linear` layer. -/
structure LinearLayer where
  W : Tensor2
  b : Vec

/-- Modelled from the spec: construction of `nn.Linear(inF, outF)`: an
`outF × inF` weight matrix and an `outF` bias, values drawn from an
external initialisation source. -/
def nnLinear (inF outF : ℕ) (w : ℕ → ℚ) : LinearLayer :=
  ⟨mkMatrix outF inF w, (List.range outF).map (fun r => w (outF * inF + r))⟩

/-- The error taxonomy of the design (spec section 7) together with the
Python-level failures the notebook can actually raise. -/
inductive PyError
  | configurationError
  | emptyInputError
  | inputFormatError
  | encoderFailure
  | trainingStepError
  | noSuccessfulTrial
  | shapeMismatch
  | indexError
  | nameError (name : String)
deriving DecidableEq

/-- Modelled from the spec: the fixed output width of the pretrained BERT
text encoder (`text_model.config.hidden_size`). -/
def textHiddenSize : ℕ := 768

/-- Modelled from the spec: the fixed output width of the pretrained ViT
image encoder (`image_model.config.hidden_size`). -/
def imageHiddenSize : ℕ := 768

/-- Modelled from the spec: the fixed output width of the pretrained
Wav2Vec2 audio encoder (`audio_model.config.hidden_size`). -/
def audioHiddenSize : ℕ := 768

/-- Modelled from the spec: the maximum supported BERT position count; the
text encoder fails beyond it. -/
def bertMaxPositions : ℕ := 512

/-- Modelled from the spec: the text tokenizer loaded by
`BertTokenizer.from_pretrained`: a maximum model length and a map from raw
text to a token id stream (the BPE details are out of scope). -/
structure BertTokenizerT where
  model_max_length : ℕ
  encode : String → List ℕ

/-- Modelled from the spec: the concrete pretrained tokenizer instance
(`bert-base-uncased`), maximum model length 512, one token per character
standing in for the external subword vocabulary. -/
def bertTokenizer : BertTokenizerT :=
  ⟨bertMaxPositions, fun s => s.toList.map Char.toNat⟩

/-- Modelled from the spec: a tokenizer call with `truncation=True`
truncates the token stream to the maximum model length of the tokenizer and
returns input ids together with an all-ones attention mask. -/
def tokenizerCall (tok : BertTokenizerT) (text : String) (truncation : Bool) :
    List ℕ × List ℕ :=
  let raw := tok.encode text
  let ids := if truncation then raw.take tok.model_max_length else raw
  (ids, List.replicate ids.length 1)

/-- Modelled from the spec: the BERT text encoder: one fixed-width feature
vector per token; fails (`EncoderFailure`) if a sequence exceeds the
maximum position count. -/
def textEncode (ids _mask : List (List ℕ)) : Except PyError Tensor3 :=
  if ids.any (fun s => bertMaxPositions < s.length) then
    .error .encoderFailure
  else
    .ok (ids.map (fun s => s.map (fun tok => List.replicate textHiddenSize ((tok : ℚ)))))

/-- Modelled from the spec: the ViT image encoder: each image of the batch
becomes a sequence of 197 fixed-width patch features (196 patches of a
224×224 image plus the class token). -/
def vitEncode (x : Tensor4) : Tensor3 :=
  x.map (fun im =>
    (List.range 197).map (fun p =>
      List.replicate imageHiddenSize ((im.map (fun ch => (ch.map List.sum).sum)).sum + p)))

/-- Modelled from the spec: the Wav2Vec2 audio encoder: its convolutional
front end fails (`EncoderFailure`) on an empty waveform; otherwise it
produces one fixed-width frame per downsampling window. -/
def audioEncode (x : Tensor2) : Except PyError Tensor3 :=
  if x.any List.isEmpty then
    .error .encoderFailure
  else
    .ok (x.map (fun wv =>
      (List.range (wv.length / 320)).map (fun f =>
        List.replicate audioHiddenSize (wv.sum + f))))

/-- Modelled from the spec: `nn.Transformer` construction asserts that
`d_model` is evenly divisible by `nhead` (the multi-head attention
divisibility check), raising at construction time otherwise. -/
def nnTransformerInit (d_model nhead _num_layers : ℕ) : Except PyError Unit :=
  if d_model % nhead = 0 then .ok () else .error .configurationError

/-- Modelled from the spec: the forward pass of the fusion transformer:
every output coordinate mixes in a global statistic of the memory sequence
(`src`), and the output has exactly the shape of the target. -/
def fuseModel (src tgt : Tensor3) : Tensor3 :=
  let g : ℚ := (src.map (fun s => (s.map List.sum).sum)).sum
  tgt.map (fun s => s.map (fun v => v.map (fun c => c + g)))

/-- All elements of a list of widths agree. -/
def allEqual : List ℕ → Bool
  | [] => true
  | w :: ws => ws.all (fun x => x == w)

/-- The widths (last-dimension sizes) of every vector of a 3-d tensor. -/
def vecWidths (x : Tensor3) : List ℕ := x.flatten.map List.length

/-- Modelled from the spec: `torch.cat(_, dim=1)` requires all dimensions
other than the concatenation axis to agree: equal batch counts and equal
feature widths. -/
def widthsAligned (t i a : Tensor3) : Bool :=
  allEqual (vecWidths t ++ vecWidths i ++ vecWidths a)

/-- Concatenation of three batched sequences along the sequence axis
(`torch.cat((t, i, a), dim=1)`); `none` models the runtime error raised on
a shape mismatch. -/
def catDim1 (t i a : Tensor3) : Option Tensor3 :=
  if (t.length = i.length ∧ i.length = a.length) ∧ widthsAligned t i a = true then
    some (List.zipWith (fun x y => x ++ y) (List.zipWith (fun x y => x ++ y) t i) a)
  else
    none

/-- The slice `x[:, 0, :]`: the position-0 vector of every batch element;
`none` models the index error raised when a sequence is empty. -/
def select0 (x : Tensor3) : Option Tensor2 :=
  x.mapM List.head?

/-- A raw image: rows of pixels, each pixel a list of channel values. -/
abbrev RawImage := List (List Vec)

/-- The ImageNet per-channel normalisation means used by the notebook `T.Normalize` call. -/
def imagenetMean : Vec := [485/1000, 456/1000, 406/1000]

/-- The ImageNet per-channel normalisation deviations used by the
notebook `T.Normalize` call. -/
def imagenetStd : Vec := [229/1000, 224/1000, 225/1000]

/-- Modelled from the spec: the notebook `image_transform` transform
(`T.Resize((224, 224))`, `T.ToTensor()`, `T.Normalize(mean, std)`):
nearest-neighbour resize to 224×224, scale to [0, 1], channels-first,
normalised per channel. -/
def imageTransform (img : RawImage) : Tensor3 :=
  (List.range 3).map (fun c =>
    (List.range 224).map (fun y =>
      (List.range 224).map (fun x =>
        let h := img.length
        let w := (img.headD []).length
        let v := (((img.getD (y * h / 224) []).getD (x * w / 224) []).getD c 0) / 255
        (v - imagenetMean.getD c 0) / imagenetStd.getD c 0)))

/-- The weights of one `MultimodalTransformer` instance: configuration and
the trainable layers the model owns (the frozen pretrained encoders are
held externally). -/
structure MultimodalTransformer where
  hidden_dim : ℕ
  n_heads : ℕ
  n_layers : ℕ
  text_proj : LinearLayer
  image_proj : LinearLayer
  audio_proj : LinearLayer
  classifier : LinearLayer

/-- `MultimodalTransformer.__init__`: loads the pretrained encoders (out of
scope), builds the three projection layers from each encoder output
width to `hidden_dim`, constructs the fusion `nn.Transformer` (which
checks `hidden_dim % n_heads == 0` at construction time) and the final
`nn.Linear(hidden_dim, 10)` classifier. -/
def MultimodalTransformer.init (hidden_dim n_heads n_layers : ℕ) (w : ℕ → ℚ) :
    Except PyError MultimodalTransformer :=
  let text_proj := nnLinear textHiddenSize hidden_dim w
  let image_proj := nnLinear imageHiddenSize hidden_dim w
  let audio_proj := nnLinear audioHiddenSize hidden_dim w
  match nnTransformerInit hidden_dim n_heads n_layers with
  | .error e => .error e
  | .ok _ =>
      .ok ⟨hidden_dim, n_heads, n_layers, text_proj, image_proj, audio_proj,
        nnLinear hidden_dim 10 w⟩

/-- `preprocess_text`: tokenize with `padding=True, truncation=True`,
returning batched (`return_tensors="pt"`) input ids and attention mask. -/
def preprocess_text (text : String) : List (List ℕ) × List (List ℕ) :=
  let e := tokenizerCall bertTokenizer text true
  ([e.1], [e.2])

/-- `preprocess_image`: load and transform the image, then `unsqueeze(0)`
to add a singleton batch dimension. -/
def preprocess_image (img : RawImage) : Tensor4 :=
  [imageTransform img]

/-- `preprocess_audio`: decode the audio (file decoding and 16 kHz
resampling are out of scope; the input here is the decoded waveform) and
tokenize it into a batched `input_values` tensor.  The source performs no
emptiness validation, and the modelled `Wav2Vec2Tokenizer` accepts a
zero-length waveform, returning a (1, 0) tensor. -/
def preprocess_audio (audio : Vec) : Except PyError Tensor2 :=
  .ok [audio]

/-- The classification step of `forward`: select the position-0 slice
`fused_features[:, 0, :]` and apply the 10-class classifier. -/
def classifyStep (m : MultimodalTransformer) (fused : Tensor3) : Option Tensor2 :=
  (select0 fused).map (fun summary => linear2 m.classifier.W m.classifier.b summary)

/-- `MultimodalTransformer.forward`: preprocess the three raw inputs,
encode each modality, project to the shared width, concatenate along the
sequence axis, fuse with the transformer and classify from position 0. -/
def MultimodalTransformer.forward (m : MultimodalTransformer)
    (text : String) (img : RawImage) (audio : Vec) : Except PyError Tensor2 :=
  let tm := preprocess_text text
  let imageInput := preprocess_image img
  match preprocess_audio audio with
  | .error e => .error e
  | .ok audioInput =>
    match textEncode tm.1 tm.2 with
    | .error e => .error e
    | .ok textFeatures =>
      let imageFeatures := vitEncode imageInput
      match audioEncode audioInput with
      | .error e => .error e
      | .ok audioFeatures =>
        let tp := linear3 m.text_proj.W m.text_proj.b textFeatures
        let ip := linear3 m.image_proj.W m.image_proj.b imageFeatures
        let ap := linear3 m.audio_proj.W m.audio_proj.b audioFeatures
        match catDim1 tp ip ap with
        | none => .error .shapeMismatch
        | some mm =>
          match classifyStep m (fuseModel mm mm) with
          | none => .error .indexError
          | some logits => .ok logits

/-- One sampled hyperparameter assignment: the two tunables the notebook
objective suggests (`lr` and `weight_decay`). -/
structure Assignment where
  lr : ℚ
  weight_decay : ℚ
deriving DecidableEq

/-- One immutable trial record of the search: trial index, sampled
assignment and observed objective value, with `⊤` standing for the
infinite objective of a failed trial. -/
structure TrialRecord where
  idx : ℕ
  assignment : Assignment
  value : WithTop ℚ
deriving DecidableEq

/-- Modelled from the spec: how the search engine turns one trial attempt
into a record: a successful run contributes its scalar loss, a failed run
(`TrainingStepError`) is recorded with objective `+infinity` instead of
aborting the search. -/
def mkTrialRecord (runner : Assignment → Except PyError ℚ) (a : Assignment)
    (i : ℕ) : TrialRecord :=
  match runner a with
  | .ok v => ⟨i, a, (v : WithTop ℚ)⟩
  | .error _ => ⟨i, a, ⊤⟩

/-- Modelled from the spec: `study.optimize(objective, n_trials=n)`: the
engine loops for exactly `n` trial attempts, sampling an assignment for
each index and recording a `TrialRecord` per attempt. -/
def runStudy (runner : Assignment → Except PyError ℚ) (sampler : ℕ → Assignment)
    (n : ℕ) : List TrialRecord :=
  (List.range n).map (fun i => mkTrialRecord runner (sampler i) i)

/-- Modelled from the spec: the best record of a study: the record of
minimum objective value, ties broken in favour of the earlier record. -/
def bestRecord : List TrialRecord → Option TrialRecord
  | [] => none
  | r :: rs =>
    match bestRecord rs with
    | none => some r
    | some b => if r.value ≤ b.value then some r else some b

/-- Modelled from the spec: `study.best_params`: the assignment of the
minimum-objective record, failing with `NoSuccessfulTrialError` when no
trial has a finite objective. -/
def best_params (records : List TrialRecord) : Except PyError Assignment :=
  match bestRecord records with
  | none => .error .noSuccessfulTrial
  | some b => if b.value = ⊤ then .error .noSuccessfulTrial else .ok b.assignment

/-- The configuration the notebook passes to `optim.AdamW`: the learning
rate and weight decay of the current assignment. -/
structure AdamWConfig where
  lr : ℚ
  weight_decay : ℚ

/-- Modelled from the spec: the scalar training loss of the logits against
the labels (`nn.CrossEntropyLoss`); softmax cross-entropy is
transcendental, and only its role as the scalar objective matters here. -/
def crossEntropyLoss (logits : Tensor2) (labels : List ℕ) : ℚ :=
  ((logits.zip labels).map (fun p => p.1.sum - p.1.getD p.2 0)).sum

/-- The top-level names the notebook has defined by the time the objective body of a
trial executes: the imports of both code cells, the model class
of cell 1 and the objective and study of cell 3. -/
def notebookDefinedNames : List String :=
  ["torch", "nn", "BertModel", "BertTokenizer", "ViTModel", "Wav2Vec2Model",
   "Wav2Vec2Tokenizer", "T", "Image", "librosa", "MultimodalTransformer",
   "optuna", "optim", "accuracy_score", "objective", "study"]

/-- The Optuna function `objective(trial)` of the notebook: reads the sampled `lr` and
`weight_decay`, then evaluates `MultimodalTransformerTuner(...)` — a name
the notebook never defines (its model class is `MultimodalTransformer`),
so Python raises `NameError` before any model is built.  The unreachable
remainder translates the intended trial body: fresh model, fresh `AdamW`
optimizer with the hyperparameters of the assignment, one forward/loss step on
the dummy example, returning `loss.item()` (the weight update of
`optimizer.step()` is unobservable, as the model is discarded). -/
def objective (w : ℕ → ℚ) (img : RawImage) (audio : Vec) (a : Assignment) :
    Except PyError ℚ :=
  let lr := a.lr
  let weight_decay := a.weight_decay
  if notebookDefinedNames.contains ("MultimodalTransformerTuner") then
    match MultimodalTransformer.init 768 8 6 w with
    | .error e => .error e
    | .ok model =>
      let _optimizer : AdamWConfig := ⟨lr, weight_decay⟩
      match model.forward ("This is an example text input.") img audio with
      | .error _ => .error .trainingStepError
      | .ok logits => .ok (crossEntropyLoss logits [0])
  else .error (.nameError ("MultimodalTransformerTuner"))

/-- Modelled from the spec: `trial.suggest_loguniform(name, low, high)`:
the exponential of a uniform draw on `[log low, log high]`, `u ∈ [0, 1]`
being the unit random draw. -/
noncomputable def suggestLogUniform (low high u : ℝ) : ℝ :=
  Real.exp (Real.log low + u * (Real.log high - Real.log low))

/-- The lower bound the notebook declares for `lr` (1e-5). -/
def lrLow : ℚ := 1 / 100000

/-- The upper bound the notebook declares for `lr` (1e-3). -/
def lrHigh : ℚ := 1 / 1000

/-- The lower bound the notebook declares for `weight_decay` (1e-6). -/
def wdLow : ℚ := 1 / 1000000

/-- The upper bound the notebook declares for `weight_decay` (1e-2). -/
def wdHigh : ℚ := 1 / 100

/-- A (batch, sequence, width) tensor has batch count `B`, every sequence
length `L`, and every feature vector width `H`. -/
def shape3 (x : Tensor3) (B L H : ℕ) : Prop :=
  x.length = B ∧ ∀ s ∈ x, s.length = L ∧ ∀ v ∈ s, v.length = H

instance shape3.instDecidable (x : Tensor3) (B L H : ℕ) :
    Decidable (shape3 x B L H) := by
  unfold shape3; infer_instance

lemma allEqual_of_forall {l : List ℕ} {H : ℕ} (h : ∀ w ∈ l, w = H) :
    allEqual l = true := by
  cases l with
  | nil => rfl
  | cons w ws =>
    simp only [allEqual, List.all_eq_true]
    intro x hx
    rw [h x (List.mem_cons_of_mem _ hx), h w (List.mem_cons_self _ _)]
    exact beq_self_eq_true H

lemma vecWidths_eq {x : Tensor3} {B L H : ℕ} (h : shape3 x B L H) :
    ∀ w ∈ vecWidths x, w = H := by
  intro w hw
  simp only [vecWidths, List.mem_map] at hw
  obtain ⟨v, hv, rfl⟩ := hw
  obtain ⟨s, hs, hvs⟩ := List.mem_flatten.mp hv
  exact (h.2 s hs).2 v hvs

lemma exists_of_mem_zipWith_append {α : Type} :
    ∀ {l1 l2 : List (List α)} {s : List α},
      s ∈ List.zipWith (fun x y => x ++ y) l1 l2 →
      ∃ x ∈ l1, ∃ y ∈ l2, s = x ++ y := by
  intro l1
  induction l1 with
  | nil => intro l2 s hs; simp at hs
  | cons x xs ih =>
    intro l2 s hs
    cases l2 with
    | nil => simp at hs
    | cons y ys =>
      rcases List.mem_cons.mp hs with h | h
      · exact ⟨x, List.mem_cons_self _ _, y, List.mem_cons_self _ _, h⟩
      · obtain ⟨x0, hx0, y0, hy0, hs0⟩ := ih h
        exact ⟨x0, List.mem_cons_of_mem _ hx0, y0, List.mem_cons_of_mem _ hy0, hs0⟩

lemma fuseModel_shape {x : Tensor3} {B L H : ℕ} (src : Tensor3)
    (h : shape3 x B L H) : shape3 (fuseModel src x) B L H := by
  constructor
  · simpa [fuseModel] using h.1
  · intro s hs
    simp only [fuseModel, List.mem_map] at hs
    obtain ⟨s0, hs0, rfl⟩ := hs
    constructor
    · simpa using (h.2 s0 hs0).1
    · intro v hv
      simp only [List.mem_map] at hv
      obtain ⟨v0, hv0, rfl⟩ := hv
      simpa using (h.2 s0 hs0).2 v0 hv0

/-- C1.  For every forward pass in which the text, image and audio
branches produce projected sequences of lengths `Lt`, `Li`, `La`, each of
width `hidden_dim` (over any common batch count `B`), the concatenation in
`forward` succeeds and the fused sequence returned by the fusion
transformer has sequence length exactly `Lt + Li + La` and feature width
exactly `hidden_dim`. -/
theorem claim_c1_fused_shape (tp ip ap : Tensor3) (B Lt Li La hidden_dim : ℕ)
    (ht : shape3 tp B Lt hidden_dim) (hi : shape3 ip B Li hidden_dim)
    (ha : shape3 ap B La hidden_dim) :
    ∃ mm, catDim1 tp ip ap = some mm ∧
      shape3 (fuseModel mm mm) B (Lt + Li + La) hidden_dim := by
  have hw : widthsAligned tp ip ap = true := by
    apply allEqual_of_forall
    intro w hmem
    rcases List.mem_append.mp hmem with hmem | hmem
    · rcases List.mem_append.mp hmem with hmem | hmem
      · exact vecWidths_eq ht w hmem
      · exact vecWidths_eq hi w hmem
    · exact vecWidths_eq ha w hmem
  have hguard : (tp.length = ip.length ∧ ip.length = ap.length) :=
    ⟨ht.1.trans hi.1.symm, hi.1.trans ha.1.symm⟩
  have hcat : catDim1 tp ip ap =
      some (List.zipWith (fun x y => x ++ y)
        (List.zipWith (fun x y => x ++ y) tp ip) ap) := by
    unfold catDim1
    rw [if_pos ⟨hguard, hw⟩]
  refine ⟨_, hcat, fuseModel_shape _ ?_⟩
  constructor
  · simp [List.length_zipWith, ht.1, hi.1, ha.1]
  · intro s hs
    obtain ⟨xy, hxy, z, hz, rfl⟩ := exists_of_mem_zipWith_append hs
    obtain ⟨x, hx, y, hy, rfl⟩ := exists_of_mem_zipWith_append hxy
    have hxs := ht.2 x hx
    have hys := hi.2 y hy
    have hzs := ha.2 z hz
    constructor
    · simp [hxs.1, hys.1, hzs.1, Nat.add_assoc]
    · intro v hv
      rcases List.mem_append.mp hv with hv | hv
      · rcases List.mem_append.mp hv with hv | hv
        · exact hxs.2 v hv
        · exact hys.2 v hv
      · exact hzs.2 v hv

/-- Witness for C1 at concrete batch-1, length-1, width-1 inputs. -/
theorem claim_c1_fused_shape_witness :
    shape3 [[[(0 : ℚ)]]] 1 1 1 ∧
    ∃ mm, catDim1 [[[(0 : ℚ)]]] [[[1]]] [[[2]]] = some mm ∧
      shape3 (fuseModel mm mm) 1 (1 + 1 + 1) 1 :=
  ⟨by decide,
   claim_c1_fused_shape [[[0]]] [[[1]]] [[[2]]] 1 1 1 1 1
     (by decide) (by decide) (by decide)⟩

/-- C7.  Construction of the model succeeds exactly when `hidden_dim` is
evenly divisible by `n_heads`; in the non-divisible case the failure is a
`ConfigurationError` raised by `__init__` itself (so it can never be
deferred past construction: no model value exists to run a trial with). -/
theorem claim_c7_construction (hd nh nl : ℕ) (w : ℕ → ℚ) :
    ((∃ m, MultimodalTransformer.init hd nh nl w = Except.ok m) ↔ hd % nh = 0) ∧
    (hd % nh ≠ 0 →
      MultimodalTransformer.init hd nh nl w = Except.error PyError.configurationError) := by
  unfold MultimodalTransformer.init nnTransformerInit
  by_cases h : hd % nh = 0 <;> simp [h]

/-- Witness for C7: `hidden_dim = 7`, `n_heads = 2` is rejected at
construction time with a `ConfigurationError`. -/
theorem claim_c7_construction_witness :
    7 % 2 ≠ 0 ∧
    MultimodalTransformer.init 7 2 6 (fun _ => 0) =
      Except.error PyError.configurationError :=
  ⟨by decide, (claim_c7_construction 7 2 6 (fun _ => 0)).2 (by decide)⟩

lemma preprocess_text_length_le (text : String) :
    ∀ s ∈ (preprocess_text text).1, s.length ≤ bertTokenizer.model_max_length := by
  intro s hs
  simp only [preprocess_text, tokenizerCall, if_true, List.mem_singleton] at hs
  subst hs
  simp only [List.length_take]
  exact Nat.min_le_left _ _

lemma textEncode_preprocess_ok (text : String) :
    ∃ f, textEncode (preprocess_text text).1 (preprocess_text text).2 = Except.ok f := by
  unfold textEncode
  have hfalse : ((preprocess_text text).1.any (fun s => bertMaxPositions < s.length)) = false := by
    apply List.any_eq_false.mpr
    intro s hs
    simpa using Nat.not_lt.mpr (preprocess_text_length_le text s hs)
  rw [hfalse]
  exact ⟨_, rfl⟩

/-- C10.  For every text input, however long, preprocessing tokenizes with
truncation enabled, so every token-id sequence it produces has length at
most the maximum model length of the tokenizer, and the text encoder therefore
never fails on over-long text. -/
theorem claim_c10_truncation (text : String) :
    (∀ s ∈ (preprocess_text text).1, s.length ≤ bertTokenizer.model_max_length) ∧
    ∃ f, textEncode (preprocess_text text).1 (preprocess_text text).2 = Except.ok f :=
  ⟨preprocess_text_length_le text, textEncode_preprocess_ok text⟩

/-- Counterexample to C6 as stated: on a zero-length audio input the audio
preprocessing path raises nothing at all — it returns a (1, 0)
`input_values` tensor instead of `EmptyInputError`. -/
theorem claim_c6_counterexample :
    preprocess_audio ([] : Vec) = Except.ok [([] : Vec)] ∧
    preprocess_audio ([] : Vec) ≠ Except.error PyError.emptyInputError :=
  ⟨rfl, fun h => Except.noConfusion h⟩

/-- C6 as amended: the Preprocessor performs no emptiness validation and
returns an empty tensor for zero-length audio; `forward` still produces no
logits, but the failure surfaces later, as an encoder failure when the
audio model consumes the empty tensor. -/
theorem claim_c6_amended (m : MultimodalTransformer) (text : String) (img : RawImage) :
    preprocess_audio ([] : Vec) = Except.ok [([] : Vec)] ∧
    m.forward text img [] = Except.error PyError.encoderFailure := by
  refine ⟨rfl, ?_⟩
  obtain ⟨f, hf⟩ := textEncode_preprocess_ok text
  unfold MultimodalTransformer.forward
  simp only [preprocess_audio]
  rw [hf]
  simp [audioEncode]

/-- C4 evaluated at a failing input: the notebook objective references
the undefined name `MultimodalTransformerTuner`, so every trial raises
`NameError` before any model or optimizer is built. -/
theorem claim_c4_trial_name_error :
    objective (fun _ => 0) [] [1] ⟨1 / 10000, 1 / 1000⟩ =
      Except.error (PyError.nameError ("MultimodalTransformerTuner")) := by
  rfl

/-- C9.  Image preprocessing always prepends a singleton batch dimension
(`unsqueeze(0)`), the image encoder preserves the batch count, and the
sequence-axis concatenation is defined only when all batch counts agree —
so whenever the concatenation succeeds with the image branch in the middle
slot, the text and audio branches must also have batch size 1. -/
theorem claim_c9_single_batch (img : RawImage) (t i a r : Tensor3)
    (hlen : i.length = (vitEncode (preprocess_image img)).length)
    (hcat : catDim1 t i a = some r) :
    (preprocess_image img).length = 1 ∧
    (vitEncode (preprocess_image img)).length = 1 ∧
    t.length = 1 ∧ a.length = 1 := by
  have h1 : (preprocess_image img).length = 1 := rfl
  have h2 : (vitEncode (preprocess_image img)).length = 1 := by
    simp [vitEncode, preprocess_image]
  have hg : t.length = i.length ∧ i.length = a.length := by
    unfold catDim1 at hcat
    split_ifs at hcat with h
    exact h.1
  refine ⟨h1, h2, ?_, ?_⟩
  · rw [hg.1, hlen, h2]
  · rw [← hg.2, hlen, h2]

/-- Witness for C9 at a concrete empty raw image and width-1 tensors. -/
theorem claim_c9_single_batch_witness :
    ([[[(5 : ℚ)]]] : Tensor3).length = (vitEncode (preprocess_image ([] : RawImage))).length ∧
    catDim1 [[[(1 : ℚ)]]] [[[(5 : ℚ)]]] [[[(2 : ℚ)]]] = some [[[1], [5], [2]]] ∧
    ((preprocess_image ([] : RawImage)).length = 1 ∧
     (vitEncode (preprocess_image ([] : RawImage))).length = 1 ∧
     ([[[(1 : ℚ)]]] : Tensor3).length = 1 ∧ ([[[(2 : ℚ)]]] : Tensor3).length = 1) :=
  ⟨by simp [vitEncode, preprocess_image], by decide,
   claim_c9_single_batch [] [[[1]]] [[[5]]] [[[2]]] [[[1], [5], [2]]]
     (by simp [vitEncode, preprocess_image]) (by decide)⟩

lemma init_ok_classifier {hd nh nl : ℕ} {w : ℕ → ℚ} {m : MultimodalTransformer}
    (hm : MultimodalTransformer.init hd nh nl w = Except.ok m) :
    m.classifier = nnLinear hd 10 w := by
  unfold MultimodalTransformer.init nnTransformerInit at hm
  by_cases h : hd % nh = 0
  · simp only [h, if_pos, if_true] at hm
    simp only [Except.ok.injEq] at hm
    rw [← hm]
  · simp [h] at hm

lemma head?_append_of_ne_nil {α : Type} {x : List α} (y : List α) (hx : x ≠ []) :
    (x ++ y).head? = x.head? := by
  cases x with
  | nil => exact absurd rfl hx
  | cons b l => rfl

lemma mapM_head_zipcat :
    ∀ (t i a : Tensor3), t.length = i.length → i.length = a.length →
      (∀ s ∈ t, s ≠ ([] : Tensor2)) →
      (List.zipWith (fun x y => x ++ y)
        (List.zipWith (fun x y => x ++ y) t i) a).mapM List.head? =
        t.mapM List.head? := by
  intro t
  induction t with
  | nil =>
    intro i a h1 h2 _h3
    have hi : i = [] := List.length_eq_zero.mp h1.symm
    have ha : a = [] := List.length_eq_zero.mp (hi ▸ h2).symm
    subst hi; subst ha; rfl
  | cons x xs ih =>
    intro i a h1 h2 h3
    cases i with
    | nil => simp at h1
    | cons y ys =>
      cases a with
      | nil => simp at h2
      | cons z zs =>
        have hx : x ≠ [] := h3 x (List.mem_cons_self _ _)
        have hxy : x ++ y ≠ [] := fun h => hx (List.append_eq_nil.mp h).1
        have ihr := ih ys zs (by simpa using h1) (by simpa using h2)
          (fun s hs => h3 s (List.mem_cons_of_mem _ hs))
        simp only [List.zipWith_cons_cons, List.mapM_cons,
          head?_append_of_ne_nil z hxy, head?_append_of_ne_nil y hx, ihr]

lemma select0_some_of_nonempty :
    ∀ (x : Tensor3), (∀ s ∈ x, s ≠ ([] : Tensor2)) →
      ∃ t2, select0 x = some t2 := by
  intro x
  induction x with
  | nil => intro _; exact ⟨[], rfl⟩
  | cons s xs ih =>
    intro h
    obtain ⟨t2, ht2⟩ := ih (fun s2 hs2 => h s2 (List.mem_cons_of_mem _ hs2))
    have hs : s ≠ [] := h s (List.mem_cons_self _ _)
    cases s with
    | nil => exact absurd rfl hs
    | cons v vs =>
      refine ⟨v :: t2, ?_⟩
      simp only [select0, List.mapM_cons] at ht2 ⊢
      rw [ht2]
      rfl

lemma nnLinear_W_length (inF outF : ℕ) (w : ℕ → ℚ) :
    (nnLinear inF outF w).W.length = outF := by
  simp [nnLinear, mkMatrix]

lemma nnLinear_b_length (inF outF : ℕ) (w : ℕ → ℚ) :
    (nnLinear inF outF w).b.length = outF := by
  simp [nnLinear]

/-- C5.  The classification step of `forward` selects the vector at index
0 of each batch element of the fused sequence; under the text–image–audio
concatenation order, position 0 of the concatenated sequence is the first
token of the projected sequence of the text modality; and the logits vector of
every batch element has length exactly 10, the class count configured by
`nn.Linear(hidden_dim, 10)`, regardless of the input sequence lengths. -/
theorem claim_c5_classifier (hd nh nl : ℕ) (w : ℕ → ℚ) (m : MultimodalTransformer)
    (hm : MultimodalTransformer.init hd nh nl w = Except.ok m)
    (tp ip ap mm : Tensor3)
    (hcat : catDim1 tp ip ap = some mm)
    (hne : ∀ s ∈ tp, s ≠ ([] : Tensor2)) :
    select0 mm = tp.mapM List.head? ∧
    ∃ logits, classifyStep m (fuseModel mm mm) = some logits ∧
      ∀ v ∈ logits, v.length = 10 := by
  unfold catDim1 at hcat
  split_ifs at hcat with hg
  · simp only [Option.some.injEq] at hcat
    subst hcat
    have hmmne : ∀ s ∈ List.zipWith (fun x y => x ++ y)
        (List.zipWith (fun x y => x ++ y) tp ip) ap, s ≠ ([] : Tensor2) := by
      intro s hs
      obtain ⟨xy, hxy, z, _hz, rfl⟩ := exists_of_mem_zipWith_append hs
      obtain ⟨x, hx, y, _hy, rfl⟩ := exists_of_mem_zipWith_append hxy
      intro hnil
      exact hne x hx (List.append_eq_nil.mp (List.append_eq_nil.mp hnil).1).1
    have hfne : ∀ s ∈ fuseModel (List.zipWith (fun x y => x ++ y)
        (List.zipWith (fun x y => x ++ y) tp ip) ap)
        (List.zipWith (fun x y => x ++ y)
          (List.zipWith (fun x y => x ++ y) tp ip) ap), s ≠ ([] : Tensor2) := by
      intro s hs
      simp only [fuseModel, List.mem_map] at hs
      obtain ⟨s0, hs0, rfl⟩ := hs
      simpa using hmmne s0 hs0
    obtain ⟨summary, hsel⟩ := select0_some_of_nonempty _ hfne
    refine ⟨mapM_head_zipcat tp ip ap hg.1.1 hg.1.2 hne, ?_⟩
    refine ⟨linear2 m.classifier.W m.classifier.b summary, ?_, ?_⟩
    · simp [classifyStep, hsel]
    · intro v hv
      simp only [linear2, List.mem_map] at hv
      obtain ⟨v0, _hv0, rfl⟩ := hv
      simp only [linearMap, List.length_zipWith]
      rw [init_ok_classifier hm, nnLinear_W_length, nnLinear_b_length]
      rfl

/-- The concrete model value built by `init 0 1 0 (fun _ => 0)`, used by
the witness of C5. -/
def M0 : MultimodalTransformer :=
  ⟨0, 1, 0, nnLinear textHiddenSize 0 (fun _ => 0), nnLinear imageHiddenSize 0 (fun _ => 0),
   nnLinear audioHiddenSize 0 (fun _ => 0), nnLinear 0 10 (fun _ => 0)⟩

lemma suggestLogUniform_mem {low high u : ℝ} (hlow : 0 < low) (hle : low ≤ high)
    (hu0 : 0 ≤ u) (hu1 : u ≤ 1) :
    low ≤ suggestLogUniform low high u ∧ suggestLogUniform low high u ≤ high ∧
      0 < suggestLogUniform low high u := by
  have hhigh : 0 < high := lt_of_lt_of_le hlow hle
  have hlog : Real.log low ≤ Real.log high := Real.log_le_log hlow hle
  have h1 : Real.log low ≤ Real.log low + u * (Real.log high - Real.log low) := by
    nlinarith [mul_nonneg hu0 (sub_nonneg.mpr hlog)]
  have h2 : Real.log low + u * (Real.log high - Real.log low) ≤ Real.log high := by
    nlinarith [mul_nonneg (sub_nonneg.mpr hu1) (sub_nonneg.mpr hlog)]
  refine ⟨?_, ?_, Real.exp_pos _⟩
  · calc low = Real.exp (Real.log low) := (Real.exp_log hlow).symm
      _ ≤ suggestLogUniform low high u := Real.exp_le_exp.mpr h1
  · calc suggestLogUniform low high u ≤ Real.exp (Real.log high) :=
        Real.exp_le_exp.mpr h2
      _ = high := Real.exp_log hhigh

/-- C8.  Every value the modelled log-uniform sampler draws lies within
its declared bounds and is strictly positive; in particular every sampled
`lr` lies in `[1e-5, 1e-3]` and every sampled `weight_decay` lies in
`[1e-6, 1e-2]`, the bounds the notebook objective declares. -/
theorem claim_c8_bounds (u v : ℝ) (hu0 : 0 ≤ u) (hu1 : u ≤ 1)
    (hv0 : 0 ≤ v) (hv1 : v ≤ 1) :
    ((lrLow : ℝ) ≤ suggestLogUniform lrLow lrHigh u ∧
      suggestLogUniform lrLow lrHigh u ≤ (lrHigh : ℝ) ∧
      0 < suggestLogUniform lrLow lrHigh u) ∧
    ((wdLow : ℝ) ≤ suggestLogUniform wdLow wdHigh v ∧
      suggestLogUniform wdLow wdHigh v ≤ (wdHigh : ℝ) ∧
      0 < suggestLogUniform wdLow wdHigh v) := by
  constructor
  · exact suggestLogUniform_mem (by norm_num [lrLow]) (by norm_num [lrLow, lrHigh]) hu0 hu1
  · exact suggestLogUniform_mem (by norm_num [wdLow]) (by norm_num [wdLow, wdHigh]) hv0 hv1

/-- Witness for C8 at the unit draw `u = v = 0`. -/
theorem claim_c8_bounds_witness :
    ((0 : ℝ) ≤ 0 ∧ (0 : ℝ) ≤ 1) ∧
    (((lrLow : ℝ) ≤ suggestLogUniform lrLow lrHigh 0 ∧
      suggestLogUniform lrLow lrHigh 0 ≤ (lrHigh : ℝ) ∧
      0 < suggestLogUniform lrLow lrHigh 0) ∧
    ((wdLow : ℝ) ≤ suggestLogUniform wdLow wdHigh 0 ∧
      suggestLogUniform wdLow wdHigh 0 ≤ (wdHigh : ℝ) ∧
      0 < suggestLogUniform wdLow wdHigh 0)) :=
  ⟨⟨le_refl 0, by norm_num⟩,
   claim_c8_bounds 0 0 (le_refl 0) (by norm_num) (le_refl 0) (by norm_num)⟩

lemma bestRecord_eq_none {l : List TrialRecord} :
    bestRecord l = none ↔ l = [] := by
  cases l with
  | nil => simp [bestRecord]
  | cons r rs =>
    simp only [bestRecord]
    cases bestRecord rs <;> simp
    split <;> simp

lemma bestRecord_mem : ∀ {l : List TrialRecord} {b : TrialRecord},
    bestRecord l = some b → b ∈ l := by
  intro l
  induction l with
  | nil => intro b h; simp [bestRecord] at h
  | cons r rs ih =>
    intro b h
    simp only [bestRecord] at h
    cases hb : bestRecord rs with
    | none =>
      rw [hb] at h
      simp only [Option.some.injEq] at h
      exact h ▸ List.mem_cons_self _ _
    | some b2 =>
      rw [hb] at h
      change (if r.value ≤ b2.value then some r else some b2) = some b at h
      split_ifs at h with hle <;> simp only [Option.some.injEq] at h
      · exact h ▸ List.mem_cons_self _ _
      · exact List.mem_cons_of_mem _ (h ▸ ih hb)

lemma bestRecord_le : ∀ {l : List TrialRecord} {b : TrialRecord},
    bestRecord l = some b → ∀ r ∈ l, b.value ≤ r.value := by
  intro l
  induction l with
  | nil => intro b h; simp [bestRecord] at h
  | cons r rs ih =>
    intro b h r2 hr2
    simp only [bestRecord] at h
    cases hb : bestRecord rs with
    | none =>
      have hrs : rs = [] := bestRecord_eq_none.mp hb
      rw [hb] at h
      simp only [Option.some.injEq] at h
      subst h
      subst hrs
      rcases List.mem_cons.mp hr2 with h2 | h2
      · exact h2 ▸ le_refl _
      · simp at h2
    | some b2 =>
      rw [hb] at h
      change (if r.value ≤ b2.value then some r else some b2) = some b at h
      split_ifs at h with hle <;> simp only [Option.some.injEq] at h <;> subst h
      · rcases List.mem_cons.mp hr2 with h2 | h2
        · exact h2 ▸ le_refl _
        · exact le_trans hle (ih hb r2 h2)
      · rcases List.mem_cons.mp hr2 with h2 | h2
        · exact h2 ▸ le_of_not_le hle
        · exact ih hb r2 h2

lemma bestRecord_earliest : ∀ {l : List TrialRecord} {b : TrialRecord},
    l.Pairwise (fun p q => p.idx ≤ q.idx) → bestRecord l = some b →
      ∀ r ∈ l, r.value = b.value → b.idx ≤ r.idx := by
  intro l
  induction l with
  | nil => intro b _ h; simp [bestRecord] at h
  | cons r rs ih =>
    intro b hp h r2 hr2 hval
    obtain ⟨hr, hrs⟩ := List.pairwise_cons.mp hp
    simp only [bestRecord] at h
    cases hb : bestRecord rs with
    | none =>
      have hnil : rs = [] := bestRecord_eq_none.mp hb
      rw [hb] at h
      simp only [Option.some.injEq] at h
      subst h
      subst hnil
      rcases List.mem_cons.mp hr2 with h2 | h2
      · exact h2 ▸ le_refl _
      · simp at h2
    | some b2 =>
      rw [hb] at h
      change (if r.value ≤ b2.value then some r else some b2) = some b at h
      split_ifs at h with hle <;> simp only [Option.some.injEq] at h <;> subst h
      · rcases List.mem_cons.mp hr2 with h2 | h2
        · exact h2 ▸ le_refl _
        · exact hr r2 h2
      · rcases List.mem_cons.mp hr2 with h2 | h2
        · exact absurd (le_of_eq (h2 ▸ hval)) hle
        · exact ih hrs hb r2 h2 hval

lemma mkTrialRecord_idx (runner : Assignment → Except PyError ℚ)
    (a : Assignment) (i : ℕ) : (mkTrialRecord runner a i).idx = i := by
  unfold mkTrialRecord
  cases runner a <;> rfl

lemma runStudy_pairwise (runner : Assignment → Except PyError ℚ)
    (sampler : ℕ → Assignment) (n : ℕ) :
    (runStudy runner sampler n).Pairwise (fun p q => p.idx ≤ q.idx) := by
  unfold runStudy
  exact List.Pairwise.map _
    (fun x y hxy => by simpa [mkTrialRecord_idx] using le_of_lt hxy)
    (List.pairwise_lt_range n)

lemma all_fail_best {l : List TrialRecord} (h : ∀ r ∈ l, r.value = ⊤) :
    best_params l = Except.error PyError.noSuccessfulTrial := by
  unfold best_params
  cases hb : bestRecord l with
  | none => rfl
  | some b => simp [h b (bestRecord_mem hb)]

lemma best_params_ok_spec {l : List TrialRecord} {a : Assignment}
    (hp : l.Pairwise (fun p q => p.idx ≤ q.idx))
    (ha : best_params l = Except.ok a) :
    ∃ r ∈ l, r.assignment = a ∧ r.value ≠ ⊤ ∧
      (∀ r2 ∈ l, r.value ≤ r2.value) ∧
      (∀ r2 ∈ l, r2.value = r.value → r.idx ≤ r2.idx) := by
  unfold best_params at ha
  cases hb : bestRecord l with
  | none => rw [hb] at ha; exact absurd ha (by simp)
  | some b =>
    rw [hb] at ha
    change (if b.value = ⊤ then Except.error PyError.noSuccessfulTrial
      else Except.ok b.assignment) = Except.ok a at ha
    split_ifs at ha with htop
    simp only [Except.ok.injEq] at ha
    exact ⟨b, bestRecord_mem hb, ha, htop, bestRecord_le hb,
      bestRecord_earliest hp hb⟩

/-- C2.  A search run with a budget of `n` trials records exactly `n`
trial attempts; `best_params` fails with `NoSuccessfulTrialError` when all
`n` trials fail; and when it returns an assignment, that assignment is the
one of the record of minimum objective value among all records (hence
among the finite ones), with ties broken by the earliest trial index. -/
theorem claim_c2_engine (runner : Assignment → Except PyError ℚ)
    (sampler : ℕ → Assignment) (n : ℕ) :
    (runStudy runner sampler n).length = n ∧
    ((∀ i < n, ∃ e, runner (sampler i) = Except.error e) →
      best_params (runStudy runner sampler n) = Except.error PyError.noSuccessfulTrial) ∧
    (∀ a, best_params (runStudy runner sampler n) = Except.ok a →
      ∃ r ∈ runStudy runner sampler n, r.assignment = a ∧ r.value ≠ ⊤ ∧
        (∀ r2 ∈ runStudy runner sampler n, r.value ≤ r2.value) ∧
        (∀ r2 ∈ runStudy runner sampler n, r2.value = r.value → r.idx ≤ r2.idx)) := by
  refine ⟨by simp [runStudy], ?_, ?_⟩
  · intro hall
    apply all_fail_best
    intro r hr
    simp only [runStudy, List.mem_map, List.mem_range] at hr
    obtain ⟨i, hi, rfl⟩ := hr
    obtain ⟨e, he⟩ := hall i hi
    simp [mkTrialRecord, he]
  · intro a ha
    exact best_params_ok_spec (runStudy_pairwise runner sampler n) ha

/-- The always-failing trial runner used by the engine witnesses. -/
def failRunner : Assignment → Except PyError ℚ :=
  fun _ => .error .trainingStepError

/-- The constant sampler used by the engine witnesses. -/
def constSampler : ℕ → Assignment := fun _ => ⟨1, 1⟩

/-- Witness for C2: a two-trial study in which every trial fails records
two attempts and raises `NoSuccessfulTrialError`. -/
theorem claim_c2_engine_witness :
    (∀ i < 2, ∃ e, failRunner (constSampler i) = Except.error e) ∧
    ((runStudy failRunner constSampler 2).length = 2 ∧
      best_params (runStudy failRunner constSampler 2) =
        Except.error PyError.noSuccessfulTrial) :=
  ⟨fun _ _ => ⟨.trainingStepError, rfl⟩,
   (claim_c2_engine failRunner constSampler 2).1,
   (claim_c2_engine failRunner constSampler 2).2.1
     (fun _ _ => ⟨.trainingStepError, rfl⟩)⟩

/-- C3.  A trial whose runner raises is recorded at its own index with
objective `+infinity` (`⊤`), the study still completes all `n` attempts of
the budget, and any assignment `best_params` returns comes from a record
with a finite objective — so a failed trial is never selected as best. -/
theorem claim_c3_failed_trial (runner : Assignment → Except PyError ℚ)
    (sampler : ℕ → Assignment) (n i : ℕ) (e : PyError)
    (hi : i < n) (hf : runner (sampler i) = Except.error e) :
    (runStudy runner sampler n).length = n ∧
    (runStudy runner sampler n)[i]? = some ⟨i, sampler i, ⊤⟩ ∧
    (∀ a, best_params (runStudy runner sampler n) = Except.ok a →
      ∃ r ∈ runStudy runner sampler n, r.assignment = a ∧ r.value ≠ ⊤) := by
  refine ⟨by simp [runStudy], ?_, ?_⟩
  · unfold runStudy
    rw [List.getElem?_map, List.getElem?_range hi]
    simp [mkTrialRecord, hf]
  · intro a ha
    obtain ⟨r, hr, hra, hrt, _, _⟩ :=
      best_params_ok_spec (runStudy_pairwise runner sampler n) ha
    exact ⟨r, hr, hra, hrt⟩

/-- Witness for C3: a single-trial study whose only trial fails records it
with objective `⊤` at index 0. -/
theorem claim_c3_failed_trial_witness :
    0 < 1 ∧ failRunner (constSampler 0) = Except.error PyError.trainingStepError ∧
    ((runStudy failRunner constSampler 1).length = 1 ∧
      (runStudy failRunner constSampler 1)[0]? = some ⟨0, constSampler 0, ⊤⟩ ∧
      (∀ a, best_params (runStudy failRunner constSampler 1) = Except.ok a →
        ∃ r ∈ runStudy failRunner constSampler 1, r.assignment = a ∧ r.value ≠ ⊤)) :=
  ⟨Nat.zero_lt_one, rfl,
   claim_c3_failed_trial failRunner constSampler 1 0 PyError.trainingStepError
     Nat.zero_lt_one rfl⟩

/-- Witness for C5 at a concrete tiny model and batch-1 tensors. -/
theorem claim_c5_classifier_witness :
    MultimodalTransformer.init 0 1 0 (fun _ => 0) = Except.ok M0 ∧
    catDim1 [[([] : Vec)]] [[([] : Vec)]] [[([] : Vec)]] = some [[([] : Vec), [], []]] ∧
    (∀ s ∈ ([[([] : Vec)]] : Tensor3), s ≠ ([] : Tensor2)) ∧
    (select0 [[([] : Vec), [], []]] = ([[([] : Vec)]] : Tensor3).mapM List.head? ∧
     ∃ logits, classifyStep M0 (fuseModel [[([] : Vec), [], []]] [[([] : Vec), [], []]]) =
         some logits ∧ ∀ v ∈ logits, v.length = 10) :=
  ⟨rfl, by decide, by decide,
   claim_c5_classifier 0 1 0 (fun _ => 0) M0 rfl
     [[([] : Vec)]] [[([] : Vec)]] [[([] : Vec)]] [[([] : Vec), [], []]]
     (by decide) (by decide)⟩
